import Mathlib

/-!
Shallow embedding of the request-evaluation core of the Authorino repository
(`pkg/service/auth.go`: the `AuthService.Check` handler and its helpers, and the
generic external-HTTP evaluator `GenericHttp.Call` with `buildRequestBody`).

Go strings are Lean `String`s; Go slices are Lean `List`s; Go maps carrying
ordered payloads (`map[string]string` header maps) are association lists; nil
slices and nil pointers are `Option`s.  External collaborators that are part of
the repository but not under `src/` (the host-configuration cache, the context
checker, the credential builder, the placeholder resolver, `AuthResult.Success`)
are modelled from the spec, each marked in its doc comment.  Fallible Go calls
return `Except String`.
-/

/-- Embeds `rpc.Code` (gogo googleapis), the result-code enum used by the
service, with its proto numbering recorded by `Code.toInt32`. -/
inductive Code where
  | OK
  | CANCELLED
  | UNKNOWN
  | INVALID_ARGUMENT
  | DEADLINE_EXCEEDED
  | NOT_FOUND
  | ALREADY_EXISTS
  | PERMISSION_DENIED
  | RESOURCE_EXHAUSTED
  | FAILED_PRECONDITION
  | ABORTED
  | OUT_OF_RANGE
  | UNIMPLEMENTED
  | INTERNAL
  | UNAVAILABLE
  | DATA_LOSS
  | UNAUTHENTICATED
deriving DecidableEq, Repr, Fintype

/-- The numeric proto value of an `rpc.Code`, as used in `int32(code)` at
`auth.go:101`. -/
def Code.toInt32 : Code → Int
  | .OK => 0
  | .CANCELLED => 1
  | .UNKNOWN => 2
  | .INVALID_ARGUMENT => 3
  | .DEADLINE_EXCEEDED => 4
  | .NOT_FOUND => 5
  | .ALREADY_EXISTS => 6
  | .PERMISSION_DENIED => 7
  | .RESOURCE_EXHAUSTED => 8
  | .FAILED_PRECONDITION => 9
  | .ABORTED => 10
  | .OUT_OF_RANGE => 11
  | .UNIMPLEMENTED => 12
  | .INTERNAL => 13
  | .UNAVAILABLE => 14
  | .DATA_LOSS => 15
  | .UNAUTHENTICATED => 16

/-- Embeds the `statusCodeMapping` map literal of `auth.go:31-36`.  Envoy
`StatusCode` enum values are their numeric HTTP codes (`BadRequest = 400`,
`NotFound = 404`, `Unauthorized = 401`, `Forbidden = 403`); the enum's zero
value (`StatusCode_Empty`) is `0`. -/
def statusCodeMapping : List (Code × Nat) :=
  [(Code.FAILED_PRECONDITION, 400),
   (Code.NOT_FOUND, 404),
   (Code.UNAUTHENTICATED, 401),
   (Code.PERMISSION_DENIED, 403)]

/-- Embeds the Go map index expression `statusCodeMapping[code]` of
`auth.go:106`: a missing key yields the zero value of the envoy status-code
enum, which is `0` (`StatusCode_Empty`), and never panics. -/
def statusCodeMappingAt (code : Code) : Nat :=
  ((statusCodeMapping.find? (fun kv => kv.1 = code)).map (fun kv => kv.2)).getD 0

/-- Embeds the constant `X_EXT_AUTH_REASON_HEADER` of `auth.go:22`. -/
def X_EXT_AUTH_REASON_HEADER : String := "X-Ext-Auth-Reason"

/-- Embeds `RESPONSE_MESSAGE_INVALID_REQUEST` of `auth.go:24`. -/
def RESPONSE_MESSAGE_INVALID_REQUEST : String := "Invalid request"

/-- Embeds `RESPONSE_MESSAGE_SERVICE_NOT_FOUND` of `auth.go:25`. -/
def RESPONSE_MESSAGE_SERVICE_NOT_FOUND : String := "Service not found"

/-- A Go `map[string]string` header map, modelled as an association list so
that iteration order is explicit. -/
abbrev HeaderMap := List (String × String)

/-- Embeds `buildResponseHeaders` (`auth.go:114-129`): flattens the list of
header maps into one list of key/value pairs by appending each map's entries
in turn. -/
def buildResponseHeaders (headers : List HeaderMap) : List (String × String) :=
  headers.foldl (fun acc headerMap => acc ++ headerMap) []

/-- Embeds `buildResponseHeadersWithReason` (`auth.go:131-143`): starts from
the extra headers when they are non-nil (else an empty list), appends one
single-entry map carrying the reason under `X-Ext-Auth-Reason`, and flattens. -/
def buildResponseHeadersWithReason (authReason : String)
    (extraHeaders : Option (List HeaderMap)) : List (String × String) :=
  let headers :=
    match extraHeaders with
    | some hs => hs
    | none => []
  buildResponseHeaders (headers ++ [[(X_EXT_AUTH_REASON_HEADER, authReason)]])

/-- Holds JSON-shaped Go values (`interface{}` decoded from JSON; `structpb`
payloads). -/
inductive JsonData where
  | null
  | bool (b : Bool)
  | num (n : Int)
  | str (s : String)
  | arr (elems : List JsonData)
  | obj (fields : List (String × JsonData))

/-- Modelled from the spec: `HostConfiguration` (the `config.APIConfig` of
`pkg/config`, not under `src/`) is an opaque immutable per-host bundle; the
handler only tests it for presence and passes it to the pipeline, so it is
modelled as an identity-carrying token. -/
structure APIConfig where
  id : Nat
deriving DecidableEq, Repr

/-- Embeds the `AuthResult` value consumed by `auth.go` (result code, message,
accumulated headers, metadata).  A nil Go headers slice is `none`. -/
structure AuthResult where
  Code : Code
  Message : String := ""
  Headers : Option (List HeaderMap) := none
  Metadata : List (String × JsonData) := []

/-- Modelled from the spec: `AuthResult.Success()` (defined outside `src/`) is
true iff the code denotes the canonical allow code, `rpc.OK`. -/
def AuthResult.Success (r : AuthResult) : Bool :=
  decide (r.Code = Code.OK)

/-- The inbound `envoy_auth.CheckRequest` as the handler consumes it: `host`
stands for `req.Attributes.Request.Http.Host` (`auth.go:54`), and
`marshalable` records whether `json.MarshalIndent(req, ...)` at `auth.go:47`
succeeds (the serialization for diagnostics, modelled abstractly). -/
structure CheckRequest where
  host : String
  marshalable : Bool := true

/-- The HTTP part of an `envoy_auth.CheckResponse`: either an
`OkHttpResponse` (headers plus dynamic metadata) or a `DeniedHttpResponse`
(HTTP status plus headers). -/
inductive HttpResponseKind where
  | OkHttpResponse (headers : List (String × String))
      (dynamicMetadata : List (String × JsonData))
  | DeniedHttpResponse (status : Nat) (headers : List (String × String))

/-- Embeds `envoy_auth.CheckResponse` as the handler populates it:
`statusCode` is the `rpcstatus.Status.Code` field (`int32(code)`). -/
structure CheckResponse where
  statusCode : Int
  httpResponse : HttpResponseKind

/-- Character-list prefix test used to embed Go `strings.Contains`. -/
def listHasPref : List Char → List Char → Bool
  | [], _ => true
  | _ :: _, [] => false
  | p :: ps, c :: cs => p == c && listHasPref ps cs

/-- Character-list substring test used to embed Go `strings.Contains`. -/
def listContainsSub (pat : List Char) (s : List Char) : Bool :=
  match s with
  | [] => listHasPref pat []
  | _ :: cs => listHasPref pat s || listContainsSub pat cs

/-- Embeds Go `strings.Contains(s, pat)`: substring containment. -/
def strContains (s pat : String) : Bool :=
  listContainsSub pat.data s.data

/-- Embeds `strings.Split(host, ":")[0]` (`auth.go:59-60`): the substring of
`host` before its first `:` (the whole string when there is none), realised as
`takeWhile` on the character data. -/
def beforeColon (host : String) : String :=
  String.mk (host.data.takeWhile (fun c => !(c == ':')))

/-- Embeds the host-resolution steps of `AuthService.Check` (`auth.go:54-61`):
exact cache lookup first; if that misses and the host contains a `:`, retry
with the substring before the first `:`.  `cacheGet` stands for
`cache.Cache.Get` (pkg/cache, not under `src/`), modelled from the spec as an
exact host-to-configuration mapping supplied as a function. -/
def resolveConfig (cacheGet : String → Option APIConfig) (host : String) :
    Option APIConfig :=
  let apiConfig := cacheGet host
  if apiConfig.isNone && strContains host ":" then cacheGet (beforeColon host)
  else apiConfig

/-- Embeds the `AuthService` receiver (`auth.go:40-42`): its cache, as the
lookup function it exposes. -/
structure AuthService where
  Cache : String → Option APIConfig

/-- Embeds `AuthService.deniedResponse` (`auth.go:97-112`): status carries the
numeric result code, the HTTP response carries the mapped status code and the
headers-with-reason list. -/
def AuthService.deniedResponse (authResult : AuthResult) : CheckResponse :=
  { statusCode := authResult.Code.toInt32,
    httpResponse := HttpResponseKind.DeniedHttpResponse
      (statusCodeMappingAt authResult.Code)
      (buildResponseHeadersWithReason authResult.Message authResult.Headers) }

/-- Embeds `AuthService.successResponse` (`auth.go:79-95`): status `OK`, the
flattened accumulated headers, and the metadata passed through (a nil headers
slice flattens to the empty list). -/
def successResponse (authResult : AuthResult) : CheckResponse :=
  { statusCode := Code.toInt32 Code.OK,
    httpResponse := HttpResponseKind.OkHttpResponse
      (buildResponseHeaders (authResult.Headers.getD []))
      authResult.Metadata }

/-- Embeds `AuthService.Check` (`auth.go:46-77`).  The pipeline
(`NewAuthPipeline` + `Evaluate`, outside `src/`) is abstracted as the supplied
`pipelineEval` function, applied only when a configuration was resolved; the
diagnostic-serialization failure path returns the invalid-request denial; a
missing configuration returns the service-not-found denial. -/
def AuthService.Check (self : AuthService)
    (pipelineEval : CheckRequest → APIConfig → AuthResult)
    (req : CheckRequest) : CheckResponse :=
  if req.marshalable = false then
    AuthService.deniedResponse
      { Code := Code.FAILED_PRECONDITION, Message := RESPONSE_MESSAGE_INVALID_REQUEST }
  else
    match resolveConfig self.Cache req.host with
    | none =>
        AuthService.deniedResponse
          { Code := Code.NOT_FOUND, Message := RESPONSE_MESSAGE_SERVICE_NOT_FOUND }
    | some apiConfig =>
        let result := pipelineEval req apiConfig
        if result.Success then successResponse result
        else AuthService.deniedResponse result

mutual

/-- Serializes a `JsonData` value to a JSON string; models
`json.StringifyJSON` of `pkg/json` (not under `src/`), which marshals an
already-JSON-shaped value and hence does not fail on these inputs. -/
def stringifyJSON : JsonData → String
  | JsonData.null => "null"
  | JsonData.bool true => "true"
  | JsonData.bool false => "false"
  | JsonData.num n => toString n
  | JsonData.str s => "\"" ++ s ++ "\""
  | JsonData.arr elems => "[" ++ stringifyList elems ++ "]"
  | JsonData.obj fields => "\x7b" ++ stringifyFields fields ++ "\x7d"

/-- Comma-joined serialization of a JSON array's elements. -/
def stringifyList : List JsonData → String
  | [] => ""
  | [e] => stringifyJSON e
  | e :: es => stringifyJSON e ++ "," ++ stringifyList es

/-- Comma-joined serialization of a JSON object's fields. -/
def stringifyFields : List (String × JsonData) → String
  | [] => ""
  | [(k, v)] => "\"" ++ k ++ "\":" ++ stringifyJSON v
  | (k, v) :: fs => "\"" ++ k ++ "\":" ++ stringifyJSON v ++ "," ++ stringifyFields fs

end

/-- Embeds `json.JSONProperty` of `pkg/json` as the evaluator consumes it: a
name and a resolvable value; `Value` is the `ResolveFor` behaviour (placeholder
resolution against the authorization JSON, `pkg/json`, not under `src/`),
modelled as the function it denotes. -/
structure JSONProperty where
  Name : String
  Value : String → JsonData

/-- Embeds the `GenericHttp` evaluator descriptor (`metadata` package,
`generic_http.go` part of the source).  `Body` is the optional templated JSON
value (`ResolveFor` behaviour); `AuthCredentials` records whether a credential
source is configured (the Go field is a nil-able embedded interface). -/
structure GenericHttp where
  Endpoint : String
  Method : String
  Body : Option (String → JsonData) := none
  Parameters : List JSONProperty := []
  Headers : List JSONProperty := []
  ContentType : String := ""
  SharedSecret : String := ""
  AuthCredentials : Bool := false

/-- The caller-supplied execution scope (`context.Context`), reduced to the one
observable the evaluator checks: whether it is already cancelled or expired. -/
structure Context where
  cancelled : Bool

/-- Modelled from the spec: `context.CheckContext` (`pkg/context`, not under
`src/`) fails exactly when the caller-supplied scope is already cancelled or
expired, so the evaluator can fail immediately without issuing the call. -/
def CheckContext (ctx : Context) : Except String Unit :=
  if ctx.cancelled then Except.error "context canceled" else Except.ok ()

/-- An outbound `http.Request` as the evaluator builds it. -/
structure HttpRequest where
  method : String
  url : String
  body : Option String
  headers : List (String × String)

/-- Embeds Go `http.Header.Set(key, value)`: replaces any existing entries for
the key with the single given value. -/
def headerSet (hs : List (String × String)) (key value : String) :
    List (String × String) :=
  hs.filter (fun kv => !(kv.1 == key)) ++ [(key, value)]

/-- Embeds Go `http.Header.Get(key)`: the first value stored for the key. -/
def headerGet (hs : List (String × String)) (key : String) : Option String :=
  (hs.find? (fun kv => kv.1 == key)).map (fun kv => kv.2)

/-- Modelled from the spec: `AuthCredentials.BuildRequestWithCredentials`
(`pkg/auth`, not under `src/`) builds the request for the given endpoint,
method and body, attaching an authorization credential derived from the shared
secret. -/
def buildRequestWithCredentials (endpoint method sharedSecret : String)
    (body : Option String) : HttpRequest :=
  { method := method, url := endpoint, body := body,
    headers := [("Authorization", sharedSecret)] }

/-- Embeds `url.Values.Encode` over the parameter data as used at
`generic_http.go` (form encoding of the stringified parameter values; percent
escaping and key sorting of the Go encoder are not modelled, no claim observes
them). -/
def formEncode (data : List (String × JsonData)) : String :=
  String.intercalate "&" (data.map (fun kv => kv.1 ++ "=" ++ stringifyJSON kv.2))

/-- Embeds `gojson.Marshal` over the parameter data: the parameters serialized
as one JSON object. -/
def jsonEncodeFields (data : List (String × JsonData)) : String :=
  stringifyJSON (JsonData.obj data)

/-- Embeds `GenericHttp.buildRequestBody` (`generic_http.go`): a configured
body template wins and is stringified; otherwise the named parameters are
resolved and encoded according to the configured content type, any other
content type being the unsupported-configuration error. -/
def GenericHttp.buildRequestBody (h : GenericHttp) (authData : String) :
    Except String (Option String) :=
  match h.Body with
  | some body => Except.ok (some (stringifyJSON (body authData)))
  | none =>
    let data := h.Parameters.map (fun param => (param.Name, param.Value authData))
    if h.ContentType = "application/x-www-form-urlencoded" then
      Except.ok (some (formEncode data))
    else if h.ContentType = "application/json" then
      Except.ok (some (jsonEncodeFields data))
    else Except.error "unsupported content-type"

/-- Folds the configured static headers onto the request, each value
placeholder-resolved and set via `Header.Set` (the `for _, header := range
h.Headers` loop of `generic_http.go`). -/
def applyConfiguredHeaders (props : List JSONProperty) (authJSON : String)
    (r : HttpRequest) : HttpRequest :=
  props.foldl
    (fun acc hdr =>
      { acc with headers := headerSet acc.headers hdr.Name (stringifyJSON (hdr.Value authJSON)) })
    r

/-- Embeds the request-construction part of `GenericHttp.Call`
(`generic_http.go`): endpoint placeholder resolution, the method switch (GET:
no body, `text/plain`; POST: configured content type and built body; anything
else: unsupported-method error), the credential or plain request build, the
configured headers, and the final forced `Content-Type`.
`replacePlaceholders` stands for `json.ReplaceJSONPlaceholders` (`pkg/json`,
not under `src/`). -/
def GenericHttp.buildOutboundRequest (h : GenericHttp) (authJSON : String)
    (replacePlaceholders : String → String → String) : Except String HttpRequest :=
  let endpoint := replacePlaceholders h.Endpoint authJSON
  let methodResult : Except String (String × Option String) :=
    if h.Method = "GET" then Except.ok ("text/plain", none)
    else if h.Method = "POST" then
      match h.buildRequestBody authJSON with
      | Except.error e => Except.error e
      | Except.ok body => Except.ok (h.ContentType, body)
    else Except.error "unsupported method"
  match methodResult with
  | Except.error e => Except.error e
  | Except.ok (contentType, requestBody) =>
    let req : HttpRequest :=
      if h.AuthCredentials then
        buildRequestWithCredentials endpoint h.Method h.SharedSecret requestBody
      else
        { method := h.Method, url := endpoint, body := requestBody, headers := [] }
    let req2 := applyConfiguredHeaders h.Headers authJSON req
    Except.ok { req2 with headers := headerSet req2.headers "Content-Type" contentType }

/-- A JSON object as `encoding/json` decodes one into
`map[string]interface{}`. -/
abbrev JsonObj := List (String × JsonData)

/-- One outcome of a `gojson.Decoder.Decode(&claims)` call on the response
body stream: either a decoded JSON object or a decode error (syntax error, or
a value that is not an object).  The stdlib decoder is modelled at its
contract level: a body is the sequence of outcomes successive `Decode` calls
produce, the end of the sequence being end-of-stream (`io.EOF` on the next
`Decode`). -/
inductive DecodeStep where
  | val (v : JsonObj)
  | fail (e : String)

/-- Embeds the decode loop of `GenericHttp.Call` (`generic_http.go`): decode;
on error, return it; append the element; stop when `decoder.More()` is false
(no further value in the stream).  A first `Decode` at end-of-stream yields
`io.EOF`, which the loop returns as an error. -/
def decodeAll : List DecodeStep → Except String (List JsonObj)
  | [] => Except.error "EOF"
  | DecodeStep.fail e :: _ => Except.error e
  | DecodeStep.val v :: rest =>
    if rest.isEmpty then Except.ok [v]
    else
      match decodeAll rest with
      | Except.error e => Except.error e
      | Except.ok vs => Except.ok (v :: vs)

/-- The evaluator's view of the collaborator's `http.Response`:
`contentTypeValues` is the `Content-Type` header value list, `jsonStream` the
body as a JSON decoder consumes it, `rawBody` the body as `io.ReadAll` reads
it. -/
structure HttpResponse where
  contentTypeValues : List String
  jsonStream : List DecodeStep
  rawBody : String

/-- The value `GenericHttp.Call` hands back to the pipeline: absent (nil),
one JSON object, the ordered list of several, or the raw body text. -/
inductive HttpResult where
  | absent
  | jsonObject (v : JsonObj)
  | jsonList (vs : List JsonObj)
  | text (s : String)

/-- Embeds the response-parsing part of `GenericHttp.Call`
(`generic_http.go`): when the joined `Content-Type` values contain
`application/json`, run the decode loop and dispatch on how many elements were
decoded; otherwise return the raw body as text. -/
def parseHttpResponse (resp : HttpResponse) : Except String HttpResult :=
  if strContains (String.intercalate ";" resp.contentTypeValues) "application/json" then
    match decodeAll resp.jsonStream with
    | Except.error e => Except.error e
    | Except.ok elements =>
      if elements.length > 1 then Except.ok (HttpResult.jsonList elements)
      else if elements.length = 1 then Except.ok (HttpResult.jsonObject (elements.headD []))
      else Except.ok HttpResult.absent
  else
    Except.ok (HttpResult.text resp.rawBody)

/-- Embeds `GenericHttp.Call` (`generic_http.go`): check the scope, build the
outbound request, issue it through the supplied transport (`doRequest` stands
for `http.DefaultClient.Do`), and parse the response.  `authJSON` stands for
`pipeline.GetAuthorizationJSON()`. -/
def GenericHttp.Call (h : GenericHttp) (ctx : Context) (authJSON : String)
    (replacePlaceholders : String → String → String)
    (doRequest : HttpRequest → Except String HttpResponse) :
    Except String HttpResult :=
  match CheckContext ctx with
  | Except.error e => Except.error e
  | Except.ok _ =>
    match h.buildOutboundRequest authJSON replacePlaceholders with
    | Except.error e => Except.error e
    | Except.ok req =>
      match doRequest req with
      | Except.error e => Except.error e
      | Except.ok resp => parseHttpResponse resp

theorem buildResponseHeaders_foldl (hs : List HeaderMap) (acc : List (String × String)) :
    hs.foldl (fun a m => a ++ m) acc = acc ++ buildResponseHeaders hs := by
  induction hs generalizing acc with
  | nil => simp [buildResponseHeaders]
  | cons m ms ih =>
    show ms.foldl _ (acc ++ m) = acc ++ buildResponseHeaders (m :: ms)
    rw [ih]
    have h2 : buildResponseHeaders (m :: ms) = m ++ buildResponseHeaders ms := by
      show ms.foldl _ ([] ++ m) = m ++ buildResponseHeaders ms
      rw [ih]
      simp
    rw [h2, List.append_assoc]

theorem buildResponseHeaders_append_single (hs : List HeaderMap) (m : HeaderMap) :
    buildResponseHeaders (hs ++ [m]) = buildResponseHeaders hs ++ m := by
  show (hs ++ [m]).foldl _ [] = _
  rw [List.foldl_append, buildResponseHeaders_foldl [m]]
  simp [buildResponseHeaders]

/-- C3: the result-code to HTTP-status mapping used for denied responses is
total: `FAILED_PRECONDITION` maps to 400, `NOT_FOUND` to 404,
`UNAUTHENTICATED` to 401, `PERMISSION_DENIED` to 403, and any other result
code maps to the defined default `0` (the zero value of the envoy status-code
enum) rather than panicking. -/
theorem statusCodeMapping_total_and_stable :
    statusCodeMappingAt Code.FAILED_PRECONDITION = 400 ∧
    statusCodeMappingAt Code.NOT_FOUND = 404 ∧
    statusCodeMappingAt Code.UNAUTHENTICATED = 401 ∧
    statusCodeMappingAt Code.PERMISSION_DENIED = 403 ∧
    ∀ code : Code, code ≠ Code.FAILED_PRECONDITION → code ≠ Code.NOT_FOUND →
      code ≠ Code.UNAUTHENTICATED → code ≠ Code.PERMISSION_DENIED →
      statusCodeMappingAt code = 0 := by
  decide

/-- Witness for C3: the unmapped code `INTERNAL` gets the default status 0. -/
theorem statusCodeMapping_total_and_stable_witness :
    statusCodeMappingAt Code.INTERNAL = 0 :=
  statusCodeMapping_total_and_stable.2.2.2.2 Code.INTERNAL
    (by decide) (by decide) (by decide) (by decide)

/-- C9: for every denied response, the rendered header list is exactly the
accumulated headers, flattened in order, followed by exactly one
`X-Ext-Auth-Reason` header carrying the message; a nil or empty accumulated
header list yields exactly that one reason header. -/
theorem denied_headers_accumulated_then_reason (msg : String) (hs : List HeaderMap) :
    buildResponseHeadersWithReason msg (some hs) =
      buildResponseHeaders hs ++ [(X_EXT_AUTH_REASON_HEADER, msg)] ∧
    buildResponseHeadersWithReason msg none = [(X_EXT_AUTH_REASON_HEADER, msg)] ∧
    buildResponseHeadersWithReason msg (some []) = [(X_EXT_AUTH_REASON_HEADER, msg)] := by
  refine ⟨?_, rfl, rfl⟩
  show buildResponseHeaders (hs ++ [[(X_EXT_AUTH_REASON_HEADER, msg)]]) = _
  rw [buildResponseHeaders_append_single]

/-- C10: exact host match takes precedence over port stripping: when the cache
holds a configuration under the full host string, the resolution returns that
configuration and the Check handler evaluates the pipeline against it,
whatever the cache holds under the bare host. -/
theorem check_exact_host_precedence (cache : String → Option APIConfig)
    (pipelineEval : CheckRequest → APIConfig → AuthResult) (req : CheckRequest)
    (c : APIConfig)
    (hok : req.marshalable = true) (hhit : cache req.host = some c) :
    resolveConfig cache req.host = some c ∧
    AuthService.Check ⟨cache⟩ pipelineEval req =
      (if (pipelineEval req c).Success then successResponse (pipelineEval req c)
       else AuthService.deniedResponse (pipelineEval req c)) := by
  have h1 : resolveConfig cache req.host = some c := by
    simp [resolveConfig, hhit]
  refine ⟨h1, ?_⟩
  simp [AuthService.Check, hok, h1]

/-- Witness for C10: with `svc.example.com:8000` and `svc.example.com` both
registered, the full-host configuration (id 1) is resolved, not the bare-host
one (id 2). -/
theorem check_exact_host_precedence_witness :
    resolveConfig
      (fun s => if s = "svc.example.com:8000" then some (APIConfig.mk 1)
                else if s = "svc.example.com" then some (APIConfig.mk 2) else none)
      "svc.example.com:8000" = some (APIConfig.mk 1) :=
  (check_exact_host_precedence
    (fun s => if s = "svc.example.com:8000" then some (APIConfig.mk 1)
              else if s = "svc.example.com" then some (APIConfig.mk 2) else none)
    (fun _ _ => { Code := Code.OK }) { host := "svc.example.com:8000" }
    (APIConfig.mk 1) rfl (by decide)).1

/-- C8: when serializing the inbound request for diagnostics fails, the Check
handler returns a denied response with code `FAILED_PRECONDITION` (9), message
`Invalid request` and hence HTTP status 400, instead of crashing. -/
theorem check_marshal_failure_invalid_request (cache : String → Option APIConfig)
    (pipelineEval : CheckRequest → APIConfig → AuthResult) (req : CheckRequest)
    (hbad : req.marshalable = false) :
    AuthService.Check ⟨cache⟩ pipelineEval req =
      { statusCode := 9,
        httpResponse := HttpResponseKind.DeniedHttpResponse 400
          [(X_EXT_AUTH_REASON_HEADER, RESPONSE_MESSAGE_INVALID_REQUEST)] } := by
  simp only [AuthService.Check, hbad]
  rfl

/-- Witness for C8: a concrete unserializable request is denied with 400 and
the invalid-request reason. -/
theorem check_marshal_failure_invalid_request_witness :
    AuthService.Check ⟨fun _ => some (APIConfig.mk 3)⟩ (fun _ _ => { Code := Code.OK })
      { host := "svc.example.com", marshalable := false } =
      { statusCode := 9,
        httpResponse := HttpResponseKind.DeniedHttpResponse 400
          [(X_EXT_AUTH_REASON_HEADER, RESPONSE_MESSAGE_INVALID_REQUEST)] } :=
  check_marshal_failure_invalid_request (fun _ => some (APIConfig.mk 3))
    (fun _ _ => { Code := Code.OK }) { host := "svc.example.com", marshalable := false } rfl

/-- C1: a request whose host has no registered configuration (looked up
exactly, and when the host contains a colon also with the substring before the
first colon) is denied with result code `NOT_FOUND` (5), HTTP status 404 and
the single header `X-Ext-Auth-Reason: Service not found`; the response is the
same for every pipeline, which is therefore never consulted. -/
theorem check_unregistered_host_not_found (cache : String → Option APIConfig)
    (pipelineEval : CheckRequest → APIConfig → AuthResult) (req : CheckRequest)
    (hok : req.marshalable = true)
    (hmiss : cache req.host = none)
    (hmiss2 : strContains req.host ":" = true → cache (beforeColon req.host) = none) :
    AuthService.Check ⟨cache⟩ pipelineEval req =
      { statusCode := 5,
        httpResponse := HttpResponseKind.DeniedHttpResponse 404
          [(X_EXT_AUTH_REASON_HEADER, RESPONSE_MESSAGE_SERVICE_NOT_FOUND)] } := by
  have hres : resolveConfig cache req.host = none := by
    simp only [resolveConfig]
    rw [hmiss]
    cases hc : strContains req.host ":"
    · simp
    · simp [hmiss2 hc]
  simp only [AuthService.Check, hok, hres]
  rfl

/-- Witness for C1: a host registered nowhere is denied with 404 and the
service-not-found reason, under an arbitrary pipeline. -/
theorem check_unregistered_host_not_found_witness :
    AuthService.Check ⟨fun _ => none⟩ (fun _ _ => { Code := Code.OK })
      { host := "unknown.example.com:8000" } =
      { statusCode := 5,
        httpResponse := HttpResponseKind.DeniedHttpResponse 404
          [(X_EXT_AUTH_REASON_HEADER, RESPONSE_MESSAGE_SERVICE_NOT_FOUND)] } :=
  check_unregistered_host_not_found (fun _ => none) (fun _ _ => { Code := Code.OK })
    { host := "unknown.example.com:8000" } rfl rfl (fun _ => rfl)

theorem listContainsSub_colon_append (l r : List Char) :
    listContainsSub [':'] (l ++ ':' :: r) = true := by
  induction l with
  | nil => simp [listContainsSub, listHasPref]
  | cons c cs ih => simp [listContainsSub, ih]

theorem takeWhile_neColon_append (l r : List Char)
    (hl : listContainsSub [':'] l = false) :
    (l ++ ':' :: r).takeWhile (fun c => !(c == ':')) = l := by
  induction l with
  | nil => simp [List.takeWhile_cons]
  | cons c cs ih =>
    simp only [listContainsSub, listHasPref, Bool.and_true, Bool.or_eq_false_iff,
      beq_eq_false_iff_ne] at hl
    obtain ⟨h1, h2⟩ := hl
    rw [List.cons_append, List.takeWhile_cons]
    have hcc : (c == ':') = false := beq_eq_false_iff_ne.mpr (fun he => h1 he.symm)
    simp [hcc, ih h2]

theorem string_data_append (s t : String) : (s ++ t).data = s.data ++ t.data := by
  cases s; cases t; rfl

theorem string_mk_data (s : String) : String.mk s.data = s := by
  cases s; rfl

theorem strContains_append_colon (h p : String) :
    strContains (h ++ ":" ++ p) ":" = true := by
  show listContainsSub [':'] (h ++ ":" ++ p).data = true
  rw [string_data_append, string_data_append]
  show listContainsSub [':'] ((h.data ++ [':']) ++ p.data) = true
  rw [List.append_assoc]
  exact listContainsSub_colon_append h.data p.data

theorem beforeColon_append (h p : String) (hnc : strContains h ":" = false) :
    beforeColon (h ++ ":" ++ p) = h := by
  show String.mk ((h ++ ":" ++ p).data.takeWhile (fun c => !(c == ':'))) = h
  rw [string_data_append, string_data_append]
  have h2 : (h.data ++ (":" : String).data) ++ p.data = h.data ++ ':' :: p.data := by
    rw [List.append_assoc]; rfl
  rw [h2, takeWhile_neColon_append h.data p.data hnc, string_mk_data]

/-- C2 counterexample: the claim fails when the registered host itself
contains a colon.  With only `a:b` registered, resolving `a:b` yields its
configuration, but resolving `a:b` + `:` + `80` strips to `a` (the substring
before the FIRST colon), misses, and yields no configuration. -/
theorem resolveConfig_port_suffix_claim_false :
    (fun s => if s = "a:b" then some (APIConfig.mk 1) else none) "a:b" = some (APIConfig.mk 1) ∧
    resolveConfig (fun s => if s = "a:b" then some (APIConfig.mk 1) else none)
        ("a:b" ++ ":" ++ "80") ≠
      resolveConfig (fun s => if s = "a:b" then some (APIConfig.mk 1) else none) "a:b" := by
  decide

/-- C2 amended: for every host `h` that contains no colon, has a registered
configuration, and whose extended string `h:p` is not itself registered, the
configuration resolved for `h` + `:` + `p` is the same as the one resolved
for `h`. -/
theorem resolveConfig_port_suffix_fallback (cache : String → Option APIConfig)
    (h p : String) (c : APIConfig)
    (hnc : strContains h ":" = false)
    (hreg : cache h = some c)
    (hmiss : cache (h ++ ":" ++ p) = none) :
    resolveConfig cache (h ++ ":" ++ p) = resolveConfig cache h := by
  simp only [resolveConfig, hreg, hmiss, strContains_append_colon,
    beforeColon_append h p hnc, Option.isNone_some, Option.isNone_none,
    Bool.true_and, Bool.false_and, if_true, if_false, hreg]
  simp [hreg]

/-- Witness for C2 amended: `svc` registered, `svc:80` not registered, both
resolve to the same configuration. -/
theorem resolveConfig_port_suffix_fallback_witness :
    resolveConfig (fun s => if s = "svc" then some (APIConfig.mk 7) else none)
        ("svc" ++ ":" ++ "80") =
      resolveConfig (fun s => if s = "svc" then some (APIConfig.mk 7) else none) "svc" :=
  resolveConfig_port_suffix_fallback
    (fun s => if s = "svc" then some (APIConfig.mk 7) else none)
    "svc" "80" (APIConfig.mk 7) (by decide) (by decide) (by decide)

theorem applyConfiguredHeaders_body (props : List JSONProperty) (authJSON : String)
    (r : HttpRequest) :
    (applyConfiguredHeaders props authJSON r).body = r.body := by
  induction props generalizing r with
  | nil => rfl
  | cons pr ps ih => exact ih _

theorem headerGet_headerSet (hs : List (String × String)) (key value : String) :
    headerGet (headerSet hs key value) key = some value := by
  induction hs with
  | nil => simp [headerGet, headerSet]
  | cons kv rest ih =>
    simp only [headerSet, List.filter_cons] at ih ⊢
    cases hkv : (kv.1 == key)
    · simp [headerGet, List.find?_cons, hkv]
    · simp [headerGet, hkv]

/-- C5: for a GET-configured evaluator the outbound request carries no body
and its `Content-Type` header is `text/plain`, whatever the configured
content type, headers or credential source. -/
theorem genericHttp_get_plain_no_body (h : GenericHttp) (authJSON : String)
    (replacePlaceholders : String → String → String)
    (hget : h.Method = "GET") :
    ∃ req : HttpRequest,
      h.buildOutboundRequest authJSON replacePlaceholders = Except.ok req ∧
      req.body = none ∧
      headerGet req.headers "Content-Type" = some "text/plain" := by
  unfold GenericHttp.buildOutboundRequest
  rw [hget]
  simp only [reduceIte]
  refine ⟨_, rfl, ?_, ?_⟩
  · show (applyConfiguredHeaders h.Headers authJSON _).body = none
    rw [applyConfiguredHeaders_body]
    cases hac : h.AuthCredentials <;> simp [buildRequestWithCredentials]
  · exact headerGet_headerSet _ "Content-Type" "text/plain"

/-- Witness for C5: a concrete GET evaluator configured with a JSON content
type still builds a bodiless request with `Content-Type: text/plain`. -/
theorem genericHttp_get_plain_no_body_witness :
    ∃ req : HttpRequest,
      GenericHttp.buildOutboundRequest
        { Endpoint := "http://ext-authz/metadata", Method := "GET",
          ContentType := "application/json" }
        "\x7b\x7d" (fun e _ => e) = Except.ok req ∧
      req.body = none ∧
      headerGet req.headers "Content-Type" = some "text/plain" :=
  genericHttp_get_plain_no_body
    { Endpoint := "http://ext-authz/metadata", Method := "GET",
      ContentType := "application/json" }
    "\x7b\x7d" (fun e _ => e) rfl

/-- C6: an evaluator configured with a method other than GET or POST, or with
POST-with-parameters and a content type other than form-urlencoded or JSON,
fails with the corresponding configuration error for every transport, hence
before any network call. -/
theorem genericHttp_config_error_no_call (h : GenericHttp) (ctx : Context)
    (authJSON : String) (replacePlaceholders : String → String → String)
    (hctx : ctx.cancelled = false)
    (hcfg : (h.Method ≠ "GET" ∧ h.Method ≠ "POST") ∨
      (h.Method = "POST" ∧ h.Body = none ∧
        h.ContentType ≠ "application/x-www-form-urlencoded" ∧
        h.ContentType ≠ "application/json")) :
    ∀ doRequest : HttpRequest → Except String HttpResponse,
      h.Call ctx authJSON replacePlaceholders doRequest =
        Except.error
          (if h.Method = "POST" then "unsupported content-type" else "unsupported method") := by
  intro doRequest
  unfold GenericHttp.Call CheckContext
  rw [hctx]
  simp only [Bool.false_eq_true, if_false]
  rcases hcfg with ⟨hg, hp⟩ | ⟨hp, hb, hct1, hct2⟩
  · unfold GenericHttp.buildOutboundRequest
    rw [if_neg hg, if_neg hp, if_neg hp]
  · unfold GenericHttp.buildOutboundRequest GenericHttp.buildRequestBody
    rw [hp, hb]
    simp only [reduceIte]
    rw [if_neg hct1, if_neg hct2]
    rw [if_neg (show ("POST" : String) ≠ "GET" by decide)]

/-- Witness for C6: a PUT-configured evaluator fails with the
unsupported-method error against a concrete transport. -/
theorem genericHttp_config_error_no_call_witness :
    GenericHttp.Call { Endpoint := "http://ext-authz/metadata", Method := "PUT" }
        { cancelled := false } "" (fun e _ => e)
        (fun _ => Except.ok { contentTypeValues := [], jsonStream := [], rawBody := "" }) =
      Except.error "unsupported method" :=
  genericHttp_config_error_no_call
    { Endpoint := "http://ext-authz/metadata", Method := "PUT" }
    { cancelled := false } "" (fun e _ => e) rfl
    (Or.inl ⟨by decide, by decide⟩)
    (fun _ => Except.ok { contentTypeValues := [], jsonStream := [], rawBody := "" })

/-- C7: when the supplied execution scope is already cancelled or expired, the
evaluator returns a failure for every transport, hence without issuing the
outbound call. -/
theorem genericHttp_cancelled_scope_no_call (h : GenericHttp) (ctx : Context)
    (authJSON : String) (replacePlaceholders : String → String → String)
    (hctx : ctx.cancelled = true) :
    ∀ doRequest : HttpRequest → Except String HttpResponse,
      h.Call ctx authJSON replacePlaceholders doRequest = Except.error "context canceled" := by
  intro doRequest
  unfold GenericHttp.Call CheckContext
  rw [hctx]
  simp

/-- Witness for C7: a concrete evaluator under a cancelled scope fails without
consulting the transport. -/
theorem genericHttp_cancelled_scope_no_call_witness :
    GenericHttp.Call { Endpoint := "http://ext-authz/metadata", Method := "GET" }
        { cancelled := true } "" (fun e _ => e)
        (fun _ => Except.ok { contentTypeValues := [], jsonStream := [], rawBody := "" }) =
      Except.error "context canceled" :=
  genericHttp_cancelled_scope_no_call
    { Endpoint := "http://ext-authz/metadata", Method := "GET" }
    { cancelled := true } "" (fun e _ => e) rfl
    (fun _ => Except.ok { contentTypeValues := [], jsonStream := [], rawBody := "" })

/-- C4: the JSON-response decode loop evaluated on concrete bodies.  An empty
body under a declared JSON content type makes the first decode call yield
`io.EOF`, which the loop returns as a FAILURE (the `len(elements) == 0`
branch of the source is unreachable), diverging from the documented
empty/absent result; one decoded object is returned directly; two are
returned as the ordered two-element sequence; a malformed body is a failure. -/
theorem genericHttp_json_response_decode_behaviour :
    parseHttpResponse
        { contentTypeValues := ["application/json"], jsonStream := [], rawBody := "" } =
      Except.error "EOF" ∧
    parseHttpResponse
        { contentTypeValues := ["application/json"],
          jsonStream := [DecodeStep.val [("x", JsonData.num 1)]], rawBody := "" } =
      Except.ok (HttpResult.jsonObject [("x", JsonData.num 1)]) ∧
    parseHttpResponse
        { contentTypeValues := ["application/json"],
          jsonStream := [DecodeStep.val [("x", JsonData.num 1)],
                         DecodeStep.val [("y", JsonData.num 2)]],
          rawBody := "" } =
      Except.ok (HttpResult.jsonList [[("x", JsonData.num 1)], [("y", JsonData.num 2)]]) ∧
    parseHttpResponse
        { contentTypeValues := ["application/json"],
          jsonStream := [DecodeStep.fail "invalid character"], rawBody := "" } =
      Except.error "invalid character" := by
  refine ⟨rfl, rfl, rfl, rfl⟩
